import Mathlib

/-!
Shallow embedding of the batch-conversion scheduler in `rom_converter.py`
(class RomConverterApp): work discovery filtering, the progress ledger,
per-job conversion (`convert_game`), the dispatcher counting loop
(`conversion_thread`), the memory-pressure gate
(`_wait_for_memory_pressure`), resource-based worker sizing
(`check_system_resources`), ISO platform detection (`detect_iso_system`)
and CUE parsing with auto-repair (`parse_cue_file`).

Paths are modelled as directory/stem/extension triples of strings, file
sizes as naturals, and memory percentages as rationals (psutil reports
floats; every comparison made by the code is against integer-valued
thresholds and `size / 1024**3` is an exact binary-float operation for
sizes below 2^53 bytes, so the rational/natural model is exact).
-/

namespace RomConv

/-- Python `s.lower()` (the strings involved are ASCII). Implemented on
    the character list so that proofs can evaluate it. -/
def lowerStr (s : String) : String :=
  String.mk (s.data.map Char.toLower)

/-- Python `s.upper()` (the strings involved are ASCII). -/
def upperStr (s : String) : String :=
  String.mk (s.data.map Char.toUpper)

/-- Python `s.strip()`: drop whitespace from both ends. -/
def trimStr (s : String) : String :=
  String.mk
    (((s.data.dropWhile (fun c => c.isWhitespace)).reverse.dropWhile
        (fun c => c.isWhitespace)).reverse)

/-- Split a character list at every separator character; empty segments
    are kept, as `re.split` keeps them. -/
def splitChars (p : Char → Bool) : List Char → List (List Char)
  | [] => [[]]
  | c :: cs =>
    if p c then [] :: splitChars p cs
    else
      match splitChars p cs with
      | [] => [[c]]
      | seg :: rest => (c :: seg) :: rest

/-- Python `re.split` on a single-character class, as a string list. -/
def splitPred (p : Char → Bool) (s : String) : List String :=
  (splitChars p s.data).map String.mk

/-- Python `pat in s` substring test, on the character lists of the
    strings. -/
def strContains (s pat : String) : Bool :=
  s.data.tails.any (fun t => pat.data.isPrefixOf t)

/-- Source line 107: `PSP_ID_PATTERNS`. -/
def PSP_ID_PATTERNS : List String :=
  ["ulus", "ules", "uljm", "uljs", "ucus", "uces", "uckr", "ulks"]

/-- Source line 108: `PS2_ID_PATTERNS`. -/
def PS2_ID_PATTERNS : List String :=
  ["slus", "sles", "scus", "sces", "slpm", "slps", "scps"]

/-- Per-path-segment system hint of `detect_iso_system` (source lines
    2481-2488): strip the part, check PSP names first, then PS2 names. -/
def partSystem (part : String) : Option String :=
  let pc := trimStr part
  if pc == "psp" || strContains pc "playstation portable" then
    some "PSP"
  else if pc == "ps2" || pc == "playstation 2" || pc == "playstation2"
      || strContains pc "sony playstation 2" then
    some "PlayStation 2"
  else
    none

/-- The `for part in path_parts` loop of `detect_iso_system`: first
    segment that yields a system wins. -/
def findSystemInParts : List String → Option String
  | [] => none
  | p :: ps =>
    match partSystem p with
    | some s => some s
    | none => findSystemInParts ps

/-- Stage (a) of `detect_iso_system` (source lines 2471-2474): game-ID
    substrings in the lowercased filename, PSP patterns checked first. -/
def classify_by_id (lowerName : String) : Option String :=
  if PSP_ID_PATTERNS.any (fun t => strContains lowerName t) then
    some "PSP"
  else if PS2_ID_PATTERNS.any (fun t => strContains lowerName t) then
    some "PlayStation 2"
  else
    none

/-- The string `detect_iso_system` scans for folder hints (source line
    2477): the lowercased full path when given, else the lowercased
    filename. -/
def pathToCheckOf (name : String) (fullPath : Option String) : String :=
  match fullPath with
  | some p => lowerStr p
  | none => lowerStr name

/-- Stage (b) of `detect_iso_system` (source lines 2477-2488): split the
    checked string on slash or backslash (re.split pattern [\\/]) and scan
    the segments. -/
def classify_by_folder (pathToCheck : String) : Option String :=
  findSystemInParts (splitPred (fun c => c == '/' || c == '\\') pathToCheck)

/-- Stage (c) of `detect_iso_system` (source lines 2492-2499): size
    thresholds. `size_gb >= 3.0` is `sz >= 3 * 2^30` bytes and
    `size_gb <= 0.5` is `sz <= 2^29` bytes, exactly (binary floats divide
    exactly by 2^30 below 2^53). -/
def classify_by_size : Option Nat → Option String
  | some sz =>
    if 3 * 1073741824 ≤ sz then some "PlayStation 2"
    else if sz ≤ 536870912 then some "PSP"
    else none
  | none => none

/-- Source lines 2457-2502: `detect_iso_system(name, size_bytes,
    full_path)`, returning `'PSP'`, `'PlayStation 2'` or `None`. -/
def detect_iso_system (name : String) (sizeBytes : Option Nat)
    (fullPath : Option String) : Option String :=
  let lowerName := lowerStr name
  if PSP_ID_PATTERNS.any (fun t => strContains lowerName t) then
    some "PSP"
  else if PS2_ID_PATTERNS.any (fun t => strContains lowerName t) then
    some "PlayStation 2"
  else
    let pathToCheck :=
      match fullPath with
      | some p => lowerStr p
      | none => lowerName
    match findSystemInParts (splitPred (fun c => c == '/' || c == '\\') pathToCheck) with
    | some sys => some sys
    | none =>
      match sizeBytes with
      | some sz =>
        if 3 * 1073741824 ≤ sz then some "PlayStation 2"
        else if sz ≤ 536870912 then some "PSP"
        else none
      | none => none

/-- How `convert_game` treats an `.iso` once the two enable toggles and
    the detection guess are known. -/
inductive Treat where
  | psp : Treat
  | ps2 : Treat
  | nothing : Treat
deriving DecidableEq, Repr

/-- Source lines 3503-3526: the `treat_psp` decision of `convert_game`.
    The second component records whether the "Could not determine system,
    defaulting to PS2" warning was logged. `Treat.nothing` is the
    "No ISO processing enabled" early `return False`. -/
def decide_treatment (pspEnabled ps2Enabled : Bool) (guess : Option String) :
    Treat × Bool :=
  if pspEnabled && !ps2Enabled then (Treat.psp, false)
  else if ps2Enabled && !pspEnabled then (Treat.ps2, false)
  else if pspEnabled && ps2Enabled then
    if guess == some "PSP" then (Treat.psp, false)
    else if guess == some "PlayStation 2" then (Treat.ps2, false)
    else (Treat.ps2, true)
  else (Treat.nothing, false)

/-- A `pathlib.Path` as the scheduler uses it: directory, stem, and
    suffix (the extension, dot included, in its original case). -/
structure FPath where
  dir : String
  stem : String
  ext : String
deriving DecidableEq, Repr

/-- `path.with_suffix(e)`: same directory and stem, new extension. -/
def withSuffix (p : FPath) (e : String) : FPath :=
  { p with ext := e }

/-- `path.name`: stem plus extension. -/
def pathName (p : FPath) : String :=
  p.stem ++ p.ext

/-- `str(path)`: the full path string, as stored in `completed_files`. -/
def pathStr (p : FPath) : String :=
  p.dir ++ "/" ++ p.stem ++ p.ext

/-- The user toggles and format choices that `convert_game` reads
    (source lines 240-250, 3503, 3530, 3553). -/
structure Settings where
  process_psp_isos : Bool
  process_ps2_isos : Bool
  psp_output_format : String
  ps2_output_format : String
deriving Repr

/-- The output path `convert_game` resolves for a source file, following
    its branch structure (source lines 3485-3580): `.cue` maps to `.chd`;
    an `.iso` is detected and treated per `decide_treatment`, then mapped
    by the selected output format; `none` when the function returns
    `False` before any output path is computed (unsupported extension,
    no ISO category enabled, or an unsupported format string). -/
def resolveOutput (s : Settings) (isoSize : Nat) (p : FPath) : Option FPath :=
  let ext := lowerStr p.ext
  if ext == ".cue" then
    some (withSuffix p ".chd")
  else if ext == ".iso" then
    let guess := detect_iso_system (pathName p) (some isoSize) (some (pathStr p))
    match (decide_treatment s.process_psp_isos s.process_ps2_isos guess).1 with
    | Treat.psp =>
      let fmt := upperStr s.psp_output_format
      if fmt == "CSO" then some (withSuffix p ".cso")
      else if fmt == "ZSO" then some (withSuffix p ".zso")
      else none
    | Treat.ps2 =>
      let fmt := upperStr s.ps2_output_format
      if fmt == "CHD" then some (withSuffix p ".chd")
      else if fmt == "CSO" then some (withSuffix p ".cso")
      else if fmt == "ZSO" then some (withSuffix p ".zso")
      else none
    | Treat.nothing => none
  else
    none

/-- Outcome of the one `subprocess.run` call of `convert_game` (source
    lines 3596-3631): normal completion with a return code and captured
    streams, `subprocess.TimeoutExpired`, or any other exception. -/
inductive ProcResult where
  | completed : Int → String → String → ProcResult
  | timedOut : ProcResult
  | raised : ProcResult
deriving DecidableEq, Repr

/-- Environment one job runs against: the filesystem as seen by the
    pre-run `output_path.exists()` check, the source sizes that feed
    `original_size`, the subprocess outcome, and the post-run state of
    the output path (its existence and `st_size`). -/
structure JobEnv where
  fsExists : FPath → Bool
  isoSize : Nat
  cueOriginalSize : Nat
  proc : ProcResult
  outExistsAfter : Bool
  outputSizeAfter : Nat

/-- What `convert_game` communicates back: its boolean return value,
    whether the external converter was invoked, and the failure reason
    it logs (for a completed process, `stderr.strip() or
    stdout.strip()`). -/
structure GameOutcome where
  success : Bool
  invoked : Bool
  errorText : Option String
deriving DecidableEq, Repr

/-- Scheduler state touched by `convert_game`: the in-memory
    `completed_files` set, the contents persisted in the progress file
    by `save_progress` (source lines 2433-2445), and the running size
    totals. -/
structure ConvState where
  completed : List String
  savedLedger : List String
  totalOriginalSize : Nat
  totalChdSize : Nat
deriving DecidableEq, Repr

/-- `completed_files.add(str(path))` on the list model of the set. -/
def addCompleted (x : String) (l : List String) : List String :=
  if x ∈ l then l else l ++ [x]

/-- Python `a or b` on stripped strings: empty string is falsy. -/
def orElseStr (a b : String) : String :=
  if a == "" then b else a

/-- The `try` block of `convert_game` (source lines 3587-3631) once the
    output path and `original_size` are resolved: run the converter once;
    on `returncode == 0 and output_path.exists()` update the size totals,
    add the source path to `completed_files`, persist via `save_progress`
    and return `True`; otherwise return `False` with the captured error
    text (timeouts and exceptions also return `False`). -/
def runConverter (env : JobEnv) (originalSize : Nat) (p : FPath)
    (st : ConvState) : GameOutcome × ConvState :=
  match env.proc with
  | ProcResult.completed rc stdoutS stderrS =>
    if rc == 0 && env.outExistsAfter then
      let newSize := env.outputSizeAfter
      let completed := addCompleted (pathStr p) st.completed
      (⟨true, true, none⟩,
       { completed := completed
         savedLedger := completed
         totalOriginalSize := st.totalOriginalSize + originalSize
         totalChdSize := st.totalChdSize + newSize })
    else
      (⟨false, true, some (orElseStr (trimStr stderrS) (trimStr stdoutS))⟩, st)
  | ProcResult.timedOut =>
    (⟨false, true, some "Timeout: Conversion took too long"⟩, st)
  | ProcResult.raised =>
    (⟨false, true, some "Exception"⟩, st)

/-- Source lines 3483-3631: `convert_game(path)`. Resolve the output
    path per branch; if none is resolved the function has already
    returned `False`; if the output already exists, log "already exists,
    skipping" and return `True` without touching the converter, the
    `completed_files` set or the progress file; otherwise run the
    converter. `original_size` is the CUE-plus-BIN total for `.cue`
    jobs and the ISO size for `.iso` jobs. (The maxcso `--threads`
    argument from `check_system_resources` only affects the command line
    and is not modelled.) -/
def convert_game (s : Settings) (env : JobEnv) (p : FPath)
    (st : ConvState) : GameOutcome × ConvState :=
  match resolveOutput s env.isoSize p with
  | none => (⟨false, false, none⟩, st)
  | some out =>
    if env.fsExists out then
      (⟨true, false, none⟩, st)
    else
      let originalSize :=
        if lowerStr p.ext == ".cue" then env.cueOriginalSize else env.isoSize
      runConverter env originalSize p st

/-- Source line 3839 of `conversion_thread`: the resume filter
    `[f for f in game_files if str(f) not in self.completed_files]`. -/
def filterCompleted (gameFiles : List FPath) (completedFiles : List String) :
    List FPath :=
  gameFiles.filter (fun f => !(completedFiles.contains (pathStr f)))

/-- What one `future.result()` call in the `as_completed` loop of
    `conversion_thread` yields: the boolean from `process_single_file`,
    `None` (the job saw `is_converting == False` before starting), or an
    exception re-raised by `future.result()`. -/
inductive JobRes where
  | ok : Bool → JobRes
  | skippedNone : JobRes
  | raised : JobRes
deriving DecidableEq, Repr

/-- Whether the cooperative-stop check at the top of the result loop
    fires while awaiting result number `i`. -/
def stopHit : Option Nat → Nat → Bool
  | some k, i => decide (k ≤ i)
  | none, _ => false

/-- The `for future in as_completed(futures)` loop of `conversion_thread`
    (source lines 3896-3939), folded over the results in completion
    order. `stopBefore = some k` models the `is_converting` flag turning
    false while the k-th result (0-based) is awaited: the loop then logs
    "stopped by user", shuts the pool down and breaks. Returns
    `(successful, failed, completed)`. A `True` result increments
    `successful` and `completed`; `False` increments `failed` and
    `completed`; `None` increments nothing; an exception increments only
    `failed` (the except branch at lines 3936-3939). -/
def processResults (stopBefore : Option Nat) :
    List JobRes → Nat → Nat → Nat → Nat → Nat × Nat × Nat
  | [], _, succ, fail, comp => (succ, fail, comp)
  | r :: rest, i, succ, fail, comp =>
    if stopHit stopBefore i then
      (succ, fail, comp)
    else
      match r with
      | JobRes.ok true => processResults stopBefore rest (i + 1) (succ + 1) fail (comp + 1)
      | JobRes.ok false => processResults stopBefore rest (i + 1) succ (fail + 1) (comp + 1)
      | JobRes.skippedNone => processResults stopBefore rest (i + 1) succ fail comp
      | JobRes.raised => processResults stopBefore rest (i + 1) succ (fail + 1) comp

/-- End-of-batch facts surfaced by `conversion_thread`. -/
structure BatchStats where
  successful : Nat
  failed : Nat
  completed : Nat
  skippedCount : Nat
  total : Nat
  cleared : Bool
deriving DecidableEq, Repr

/-- Source lines 3835-3990 of `conversion_thread`, at the counting level:
    filter the discovered files against `completed_files`
    (`skipped_count = original_count - len(game_files)`); with zero
    remaining jobs, clear the progress file exactly when something was
    skipped (lines 3849-3857); otherwise run the result loop over the
    per-future results `rs` and afterwards clear the progress file
    exactly when `failed == 0 or total == successful` (lines
    3988-3990). -/
def conversion_thread_counts (gameFiles : List FPath)
    (completedFiles : List String) (rs : List JobRes)
    (stopBefore : Option Nat) : BatchStats :=
  let jobs := filterCompleted gameFiles completedFiles
  let skipped := gameFiles.length - jobs.length
  let total := jobs.length
  if total == 0 then
    { successful := 0, failed := 0, completed := 0, skippedCount := skipped
      total := 0, cleared := decide (0 < skipped) }
  else
    let sfc := processResults stopBefore rs 0 0 0 0
    { successful := sfc.1, failed := sfc.2.1, completed := sfc.2.2
      skippedCount := skipped, total := total
      cleared := (sfc.2.1 == 0 || total == sfc.1) }

/-- Per-job results and state threading of an uncancelled batch: source
    line 3889 submits `process_single_file` for every filtered job, and
    with `is_converting` true throughout, each job runs `convert_game`
    and its boolean is counted at lines 3914-3922. Completion order is
    modelled as submission order; the counts and final state are
    fold-invariant under the interleaving because each job only adds to
    the counters and the ledger. Returns
    `((successful, failed, invocations), final state)`. -/
def runJobsFull (s : Settings) (envOf : FPath → JobEnv) :
    List FPath → Nat → Nat → Nat → ConvState → (Nat × Nat × Nat) × ConvState
  | [], succ, fail, inv, st => ((succ, fail, inv), st)
  | p :: ps, succ, fail, inv, st =>
    let r := convert_game s (envOf p) p st
    runJobsFull s envOf ps
      (if r.1.success then succ + 1 else succ)
      (if r.1.success then fail else fail + 1)
      (if r.1.invoked then inv + 1 else inv)
      r.2

/-- An uncancelled batch end to end: discovery output filtered against
    the ledger held in the initial state (`self.completed_files` is both
    the filter source at line 3839 and what `convert_game` adds to at
    line 3613), then every remaining job executed in order. -/
def runBatchFull (s : Settings) (envOf : FPath → JobEnv)
    (gameFiles : List FPath) (st : ConvState) :
    (Nat × Nat × Nat) × ConvState :=
  runJobsFull s envOf (filterCompleted gameFiles st.completed) 0 0 0 st

/-- How `_wait_for_memory_pressure` exits: the `PSUTIL_AVAILABLE` early
    return, a sample below the critical threshold (return inside the
    loop), an exception while sampling (the bare `return` in the except
    branch), or the loop condition going false (maximum wait reached or
    `is_converting` cleared), after which the worker proceeds anyway.
    The payload counts completed sleep iterations; `waited` equals two
    seconds times that count, and one `gc.collect()` reclamation hint ran
    per completed iteration. -/
inductive GateExit where
  | notAvailable : GateExit
  | proceedBelow : Nat → GateExit
  | sampleError : Nat → GateExit
  | maxedOut : Nat → GateExit
deriving DecidableEq, Repr

/-- Sleep iterations performed before the gate exit. -/
def gateSleepCount : GateExit → Nat
  | GateExit.notAvailable => 0
  | GateExit.proceedBelow k => k
  | GateExit.sampleError k => k
  | GateExit.maxedOut k => k

/-- The `while waited < max_wait and self.is_converting` loop of
    `_wait_for_memory_pressure` (source lines 3729-3747), with
    `waited = 2 * k` after `k` iterations, `conv k` the `is_converting`
    flag and `mem k` the `psutil.virtual_memory().percent` sample (none
    models an exception) as seen at iteration `k`. Fuel is structural
    only; the top-level entry supplies `maxWait` units, more than the
    loop can consume, and the fuel-exhausted branch coincides with the
    loop condition being false there. -/
def gateLoop (critical : ℚ) (maxWait : Nat) (conv : Nat → Bool)
    (mem : Nat → Option ℚ) : Nat → Nat → GateExit
  | 0, k => GateExit.maxedOut k
  | fuel + 1, k =>
    if decide (2 * k < maxWait) && conv k then
      match mem k with
      | none => GateExit.sampleError k
      | some m =>
        if m < critical then GateExit.proceedBelow k
        else gateLoop critical maxWait conv mem fuel (k + 1)
    else
      GateExit.maxedOut k

/-- Source lines 3716-3750: `_wait_for_memory_pressure(max_wait=60)`,
    called by `process_single_file` strictly before `convert_game`.
    `self.ram_critical_percent` defaults to 95 (source line 235). -/
def wait_for_memory_pressure (avail : Bool) (critical : ℚ)
    (conv : Nat → Bool) (mem : Nat → Option ℚ) (maxWait : Nat) : GateExit :=
  if !avail then GateExit.notAvailable
  else gateLoop critical maxWait conv mem maxWait 0

/-- Source lines 3752-3777: `check_system_resources()`, returning the
    recommended worker count. `sample = none` models both
    `PSUTIL_AVAILABLE` being false and the except branch; thresholds
    `ramThresh = 90`, `cpuThresh = 95` by default (source lines
    234-236); `int(cpu_cores * 0.75)` is exactly `3 * cores / 4` in
    natural division. -/
def check_system_resources (avail : Bool) (cpuCores : Nat)
    (ramThresh cpuThresh : ℚ) (sample : Option (ℚ × ℚ)) : Nat :=
  if !avail then cpuCores
  else
    match sample with
    | none => cpuCores
    | some s =>
      if ramThresh ≤ s.2 then max 1 (cpuCores / 2)
      else if cpuThresh ≤ s.1 then max 1 (cpuCores / 2)
      else if 75 ≤ s.2 ∨ 80 ≤ s.1 then max 1 (3 * cpuCores / 4)
      else cpuCores

/-- Case-insensitive literal match at the head of `cs`, returning the
    matched characters (original case) and the remainder. -/
def dropLitCI : List Char → List Char → Option (List Char × List Char)
  | [], cs => some ([], cs)
  | _ :: _, [] => none
  | p :: ps, c :: cs =>
    if c.toLower == p.toLower then
      (dropLitCI ps cs).map (fun mr => (c :: mr.1, mr.2))
    else
      none

/-- Regex alternative `Track\s*\d+` (IGNORECASE) matched at the head of
    `cs`: the literal, then greedy whitespace, then at least one digit.
    Greedy matching needs no backtracking here because whitespace and
    digit classes are disjoint and the pattern ends after the digits. -/
def matchTrackNum (cs : List Char) : Option (List Char × List Char) :=
  match dropLitCI "track".data cs with
  | none => none
  | some mr =>
    let sp := mr.2.takeWhile (fun c => c.isWhitespace)
    let r2 := mr.2.dropWhile (fun c => c.isWhitespace)
    let ds := r2.takeWhile (fun c => c.isDigit)
    let r3 := r2.dropWhile (fun c => c.isDigit)
    if ds.isEmpty then none else some (mr.1 ++ sp ++ ds, r3)

/-- Regex alternative `\(Track\s*\d+\)` matched at the head of `cs`. -/
def matchParenTrack (cs : List Char) : Option (List Char × List Char) :=
  match cs with
  | '(' :: rest =>
    match matchTrackNum rest with
    | some mr =>
      match mr.2 with
      | ')' :: r2 => some ('(' :: mr.1 ++ [')'], r2)
      | _ => none
    | none => none
  | _ => none

/-- Leftmost search: scan positions left to right, at each position try
    the alternatives in the regex's order. -/
def findTrackAux : List Char → Option (List Char)
  | [] => none
  | c :: cs =>
    match matchTrackNum (c :: cs) with
    | some mr => some mr.1
    | none =>
      match matchParenTrack (c :: cs) with
      | some mr => some mr.1
      | none => findTrackAux cs

/-- Source lines 3300-3301 of `parse_cue_file`:
    `re.search(r'(Track\s*\d+|\(Track\s*\d+\))', match, re.IGNORECASE)`,
    returning the matched group. -/
def findTrackInfo (s : String) : Option String :=
  (findTrackAux s.data).map (fun l => String.mk l)

/-- The directory around a CUE file, as `parse_cue_file` reads it:
    names that exist in the directory (for `(cue_dir / match).exists()`)
    and the stems of the `cue_dir.glob("*.bin")` results in glob order. -/
structure CueDir where
  existing : List String
  binStems : List String

/-- The multi-track arm of the repair loop (source lines 3311-3321):
    every glob result is tested against the three expected patterns and
    `found_bin` is overwritten on each hit (the inner `break` leaves the
    outer loop running), so the last matching stem wins. -/
def repairLookupTrack (binStems : List String) (pats : List String) :
    Option String :=
  binStems.foldl
    (fun acc stem =>
      if pats.any (fun pt => lowerStr stem == lowerStr pt) then some stem
      else acc)
    none

/-- The single-track arm of the repair loop (source lines 3322-3326):
    the outer `break` stops at the first stem equal (case-insensitively)
    to the CUE's own stem. -/
def repairLookupSingle (binStems : List String) (cueBase : String) :
    Option String :=
  binStems.find? (fun stem => lowerStr stem == lowerStr cueBase)

/-- The repair lookup for one missing referenced name `m` (source lines
    3292-3326): extract the track indicator from `m`, then search the
    `.bin` glob results. -/
def repairLookup (dir : CueDir) (cueBase : String) (m : String) :
    Option String :=
  match findTrackInfo m with
  | some t =>
    repairLookupTrack dir.binStems
      [cueBase ++ " (" ++ t ++ ")", cueBase ++ " " ++ t,
       cueBase ++ "(" ++ t ++ ")"]
  | none => repairLookupSingle dir.binStems cueBase

/-- The `for match in matches` loop of `parse_cue_file` (source lines
    3287-3334): a referenced name that resolves is kept as-is; a missing
    one goes through the repair lookup and, when found, contributes the
    renamed sibling (`stem + ".bin"`) plus a repair entry; otherwise it
    is only logged. Returns `(bin_files, repairs)` in loop order. -/
def parse_cue_refs (dir : CueDir) (cueBase : String) :
    List String → List String × List (String × String)
  | [] => ([], [])
  | m :: ms =>
    let rest := parse_cue_refs dir cueBase ms
    if dir.existing.contains m then
      (m :: rest.1, rest.2)
    else
      match repairLookup dir cueBase m with
      | some stem => ((stem ++ ".bin") :: rest.1, (m, stem ++ ".bin") :: rest.2)
      | none => rest

/-- Python `s.replace(pat, repl)` (all non-overlapping occurrences, left
    to right) on character lists; fuel-driven so it reduces by `rfl`,
    adequate at `fuel = s.length` since every step consumes at least one
    character of `s`. -/
def replaceList (pat repl : List Char) : Nat → List Char → List Char
  | 0, s => s
  | fuel + 1, s =>
    match s with
    | [] => []
    | c :: cs =>
      if pat.isPrefixOf s && !pat.isEmpty then
        repl ++ replaceList pat repl fuel (s.drop pat.length)
      else
        c :: replaceList pat repl fuel cs

/-- Python `s.replace(pat, repl)` on strings. -/
def strReplace (s pat repl : String) : String :=
  String.mk (replaceList pat.data repl.data s.data.length s.data)

/-- Source lines 3339-3341: each repair entry rewrites
    `"old_name"` to `"new_name"` (quotes included) throughout the CUE
    text. The repair list may repeat a key where the dict would collapse
    it; the rewrite result is unchanged because a second replacement of
    an already-replaced quoted name finds no occurrence. -/
def applyRepairs (content : String) (repairs : List (String × String)) :
    String :=
  repairs.foldl
    (fun c pr =>
      strReplace c ("\"" ++ pr.1 ++ "\"") ("\"" ++ pr.2 ++ "\""))
    content

/-- Result of `parse_cue_file`: the resolved sibling names, the repair
    map in insertion order, and the CUE text after the call (the file is
    rewritten on disk exactly when `newContent` was recomputed, source
    lines 3336-3347). -/
structure CueParseResult where
  bin_files : List String
  repairs : List (String × String)
  newContent : String
deriving DecidableEq, Repr

/-- Source lines 3268-3352: `parse_cue_file(cue_path, auto_repair=True)`.
    `matches` stands for `file_pattern.findall(content)` with
    `FILE\s+"([^"]+)"\s+BINARY`; the extraction itself is not modelled,
    the reference list is taken as input alongside the raw text.
    `cueBase` is `cue_path.stem`. The descriptor file is written back
    exactly when `auto_repair` holds and the repair map is non-empty
    (`cue_needs_repair` is set exactly when an entry is added). -/
def parse_cue_file (auto_repair : Bool) (content : String)
    (refNames : List String) (dir : CueDir) (cueBase : String) :
    CueParseResult :=
  let br := parse_cue_refs dir cueBase refNames
  let newContent :=
    if auto_repair && !br.2.isEmpty then applyRepairs content br.2
    else content
  { bin_files := br.1, repairs := br.2, newContent := newContent }

lemma contains_eq_decide_mem (cs : List String) (x : String) :
    cs.contains x = decide (x ∈ cs) := by
  simp [List.contains, List.elem_eq_mem]

/-- Claim C1: resume filtering is exact. The job list submitted to the
    pool is precisely the discovered list with the ledger members
    removed, its length is the discovered count minus the number of
    discovered files whose path string is in the ledger (whichever ones
    those are), and no submitted job's path is in the ledger. -/
theorem C1_resume_filtering (gameFiles : List FPath)
    (completedFiles : List String) :
    filterCompleted gameFiles completedFiles
        = gameFiles.filter (fun f => decide (pathStr f ∉ completedFiles))
      ∧ (filterCompleted gameFiles completedFiles).length
          + (gameFiles.filter (fun f => decide (pathStr f ∈ completedFiles))).length
          = gameFiles.length
      ∧ ∀ f ∈ filterCompleted gameFiles completedFiles,
          pathStr f ∉ completedFiles := by
  have hcongr : filterCompleted gameFiles completedFiles
      = gameFiles.filter (fun f => decide (pathStr f ∉ completedFiles)) := by
    refine List.filter_congr (fun f _ => ?_)
    rw [contains_eq_decide_mem]
    by_cases h : pathStr f ∈ completedFiles <;> simp [h]
  refine ⟨hcongr, ?_, ?_⟩
  · have hsplit := List.length_eq_length_filter_add (l := gameFiles)
      (fun f => decide (pathStr f ∈ completedFiles))
    have hpt : (gameFiles.filter (fun f => decide (pathStr f ∉ completedFiles)))
        = (gameFiles.filter
            (fun f => !(decide (pathStr f ∈ completedFiles)))) := by
      refine List.filter_congr (fun f _ => ?_)
      by_cases h : pathStr f ∈ completedFiles <;> simp [h]
    rw [hcongr, hpt]
    omega
  · intro f hf
    rw [hcongr] at hf
    have := (List.mem_filter.mp hf).2
    simpa using this

/-- Concrete instance of the resume filter: with two discovered files
    and the second one in the ledger, only the first is submitted and it
    is not in the ledger. -/
theorem C1_resume_filtering_witness :
    pathStr (⟨"/games", "Alpha", ".cue"⟩ : FPath)
      ∉ ["/games/Beta.cue"] :=
  (C1_resume_filtering
      [⟨"/games", "Alpha", ".cue"⟩, ⟨"/games", "Beta", ".cue"⟩]
      ["/games/Beta.cue"]).2.2
    ⟨"/games", "Alpha", ".cue"⟩ (by decide)

/-- Claim C2 counterexample: a job whose output artifact already exists
    returns the success value `True` with no converter invocation, but
    its source path is neither added to the completed-paths set nor
    persisted to the ledger before the result returns — refuting the
    claim that a SkippedAlreadyDone outcome is durably recorded. -/
theorem C2_counterexample :
    (convert_game ⟨false, false, "CSO", "CHD"⟩
        ⟨fun q => decide (q = withSuffix ⟨"/games", "Alpha", ".cue"⟩ ".chd"),
         0, 700, ProcResult.completed 0 "" "", true, 10⟩
        ⟨"/games", "Alpha", ".cue"⟩ ⟨[], [], 0, 0⟩)
      = (⟨true, false, none⟩, ⟨[], [], 0, 0⟩) := by
  decide

/-- Claim C2 amended: only a `Success` outcome (converter invoked, exit
    code 0, output present afterwards) adds the source path to the
    completed set and persists it — the in-memory set and the saved
    ledger coincide and contain the path in the state returned with the
    result, hence strictly before the dispatcher can see the result;
    the skipped-already-done path returns `True` without recording
    anything (see the counterexample). -/
theorem C2_success_persisted_before_return (s : Settings) (env : JobEnv)
    (p : FPath) (st : ConvState) (out : FPath)
    (hres : resolveOutput s env.isoSize p = some out)
    (hpre : env.fsExists out = false)
    (hproc : ∃ o e, env.proc = ProcResult.completed 0 o e)
    (hpost : env.outExistsAfter = true) :
    (convert_game s env p st).1.success = true
      ∧ (convert_game s env p st).2.completed
          = addCompleted (pathStr p) st.completed
      ∧ (convert_game s env p st).2.savedLedger
          = (convert_game s env p st).2.completed
      ∧ pathStr p ∈ (convert_game s env p st).2.savedLedger := by
  rcases hproc with ⟨o, e, hpe⟩
  have hmem : pathStr p ∈ addCompleted (pathStr p) st.completed := by
    unfold addCompleted
    by_cases h : pathStr p ∈ st.completed
    · simp [h]
    · simp [h]
  simp only [convert_game, hres, hpre, Bool.false_eq_true, if_false,
    runConverter, hpe]
  simp [hpost, hmem]

/-- Concrete instance of the amended C2: a successful CUE conversion
    leaves the source path in both the in-memory set and the saved
    ledger of the returned state. -/
theorem C2_success_persisted_before_return_witness :
    pathStr (⟨"/games", "Alpha", ".cue"⟩ : FPath)
      ∈ (convert_game ⟨false, false, "CSO", "CHD"⟩
          ⟨fun _ => false, 0, 700, ProcResult.completed 0 "" "", true, 10⟩
          ⟨"/games", "Alpha", ".cue"⟩ ⟨[], [], 0, 0⟩).2.savedLedger :=
  (C2_success_persisted_before_return ⟨false, false, "CSO", "CHD"⟩
      ⟨fun _ => false, 0, 700, ProcResult.completed 0 "" "", true, 10⟩
      ⟨"/games", "Alpha", ".cue"⟩ ⟨[], [], 0, 0⟩
      (withSuffix ⟨"/games", "Alpha", ".cue"⟩ ".chd")
      (by decide) (by decide) ⟨"", "", rfl⟩ rfl).2.2.2

lemma processResults_bound (stop : Option Nat) (rs : List JobRes) :
    ∀ i s f c,
      s ≤ (processResults stop rs i s f c).1
        ∧ f ≤ (processResults stop rs i s f c).2.1
        ∧ (processResults stop rs i s f c).1
            + (processResults stop rs i s f c).2.1 ≤ s + f + rs.length := by
  induction rs with
  | nil =>
    intro i s f c
    simp [processResults]
  | cons r rest ih =>
    intro i s f c
    by_cases h : stopHit stop i
    · simp [processResults, h]
    · cases r with
      | ok b =>
        cases b
        · have := ih (i + 1) s (f + 1) (c + 1)
          simp only [processResults, h, Bool.false_eq_true, if_false]
          simp only [List.length_cons]
          omega
        · have := ih (i + 1) (s + 1) f (c + 1)
          simp only [processResults, h, Bool.false_eq_true, if_false]
          simp only [List.length_cons]
          omega
      | skippedNone =>
        have := ih (i + 1) s f c
        simp only [processResults, h, Bool.false_eq_true, if_false]
        simp only [List.length_cons]
        omega
      | raised =>
        have := ih (i + 1) s (f + 1) c
        simp only [processResults, h, Bool.false_eq_true, if_false]
        simp only [List.length_cons]
        omega

lemma processResults_count_none (rs : List JobRes)
    (hnone : JobRes.skippedNone ∉ rs) :
    ∀ i s f c,
      (processResults none rs i s f c).1
          + (processResults none rs i s f c).2.1 = s + f + rs.length := by
  induction rs with
  | nil =>
    intro i s f c
    simp [processResults]
  | cons r rest ih =>
    intro i s f c
    have hr : r ≠ JobRes.skippedNone := fun h => hnone (h ▸ List.mem_cons_self r rest)
    have hrest : JobRes.skippedNone ∉ rest := fun h => hnone (List.mem_cons_of_mem r h)
    cases r with
    | ok b =>
      cases b
      · have := ih hrest (i + 1) s (f + 1) (c + 1)
        simp only [processResults, stopHit, Bool.false_eq_true, if_false]
        simp only [List.length_cons]
        omega
      · have := ih hrest (i + 1) (s + 1) f (c + 1)
        simp only [processResults, stopHit, Bool.false_eq_true, if_false]
        simp only [List.length_cons]
        omega
    | skippedNone => exact absurd rfl hr
    | raised =>
      have := ih hrest (i + 1) s (f + 1) c
      simp only [processResults, stopHit, Bool.false_eq_true, if_false]
      simp only [List.length_cons]
      omega

/-- Claim C3 counterexample: a batch of one discovered job, cancelled
    before any result is collected (the stop flag fires at the first
    `as_completed` iteration), still clears the progress ledger: the
    clear condition `failed == 0 or total == successful` holds with
    `failed = 0` even though 0 of 1 jobs completed — refuting the claim
    that a batch that did not run to completion leaves the ledger
    intact. -/
theorem C3_counterexample :
    (conversion_thread_counts [⟨"/games", "Alpha", ".cue"⟩] []
        [JobRes.ok true] (some 0)).cleared = true
      ∧ (conversion_thread_counts [⟨"/games", "Alpha", ".cue"⟩] []
          [JobRes.ok true] (some 0)).completed = 0
      ∧ (conversion_thread_counts [⟨"/games", "Alpha", ".cue"⟩] []
          [JobRes.ok true] (some 0)).total = 1 := by
  decide

/-- Claim C3 amended: with one result slot per submitted job, the ledger
    is cleared exactly when the result loop ends with `failed = 0` —
    including a cancellation mid-run with no failures collected so far —
    or, when no jobs remained after filtering, exactly when some files
    were skipped via the ledger; in particular any batch ending with one
    or more failures leaves the ledger intact. -/
theorem C3_clear_condition (gameFiles : List FPath)
    (completedFiles : List String) (rs : List JobRes) (stop : Option Nat)
    (hlen : rs.length = (filterCompleted gameFiles completedFiles).length) :
    (conversion_thread_counts gameFiles completedFiles rs stop).cleared = true
      ↔ ((conversion_thread_counts gameFiles completedFiles rs stop).failed = 0
          ∧ ((conversion_thread_counts gameFiles completedFiles rs stop).total ≠ 0
              ∨ 0 < (conversion_thread_counts gameFiles completedFiles
                      rs stop).skippedCount)) := by
  by_cases htot : (filterCompleted gameFiles completedFiles).length = 0
  · simp [conversion_thread_counts, htot]
  · have hbound := processResults_bound stop rs 0 0 0 0
    simp only [conversion_thread_counts, htot]
    have hne : ((filterCompleted gameFiles completedFiles).length == 0) = false := by
      simpa using htot
    simp only [hne, Bool.false_eq_true, if_false]
    constructor
    · intro h
      have h' := h
      rw [Bool.or_eq_true] at h'
      rcases h' with h' | h'
      · refine ⟨by simpa using h', Or.inl (by simpa using htot)⟩
      · have hst : (filterCompleted gameFiles completedFiles).length
            = (processResults stop rs 0 0 0 0).1 := by simpa using h'
        have : (processResults stop rs 0 0 0 0).2.1 = 0 := by omega
        exact ⟨this, Or.inl (by simpa using htot)⟩
    · intro h
      rcases h with ⟨hf, _⟩
      rw [Bool.or_eq_true]
      refine Or.inl ?_
      have hz : (processResults stop rs 0 0 0 0).2.1 = 0 := by simpa using hf
      simpa using hz

/-- Concrete instance of the amended C3: a completed batch with one
    failure does not clear the ledger. -/
theorem C3_clear_condition_witness :
    (conversion_thread_counts [⟨"/games", "Beta", ".cue"⟩] []
        [JobRes.ok false] none).cleared = true
      ↔ ((conversion_thread_counts [⟨"/games", "Beta", ".cue"⟩] []
            [JobRes.ok false] none).failed = 0
          ∧ ((conversion_thread_counts [⟨"/games", "Beta", ".cue"⟩] []
                [JobRes.ok false] none).total ≠ 0
              ∨ 0 < (conversion_thread_counts [⟨"/games", "Beta", ".cue"⟩] []
                      [JobRes.ok false] none).skippedCount)) :=
  C3_clear_condition [⟨"/games", "Beta", ".cue"⟩] [] [JobRes.ok false] none
    (by decide)

/-- Claim C6 counterexample: a batch of two discovered files, none in
    the ledger, cancelled after one result was collected: the final
    counts are `successful = 1, failed = 0, skippedCount = 0`, summing
    to 1, not the discovered count 2 — refuting "for all batches,
    always". -/
theorem C6_counterexample :
    ¬ ((conversion_thread_counts
          [⟨"/g", "Alpha", ".cue"⟩, ⟨"/g", "Beta", ".cue"⟩] []
          [JobRes.ok true, JobRes.ok true] (some 1)).successful
        + (conversion_thread_counts
            [⟨"/g", "Alpha", ".cue"⟩, ⟨"/g", "Beta", ".cue"⟩] []
            [JobRes.ok true, JobRes.ok true] (some 1)).failed
        + (conversion_thread_counts
            [⟨"/g", "Alpha", ".cue"⟩, ⟨"/g", "Beta", ".cue"⟩] []
            [JobRes.ok true, JobRes.ok true] (some 1)).skippedCount
        = ([⟨"/g", "Alpha", ".cue"⟩, ⟨"/g", "Beta", ".cue"⟩] : List FPath).length) := by
  decide

/-- Claim C6 amended: for every batch that is not cancelled (the stop
    flag never fires, so no result is `None` and every submitted job
    contributes one collected result),
    `successful + failed + skippedCount = ` the discovered count; a
    cancelled batch can undercount. -/
theorem C6_aggregate_counts (gameFiles : List FPath)
    (completedFiles : List String) (rs : List JobRes)
    (hlen : rs.length = (filterCompleted gameFiles completedFiles).length)
    (hnone : JobRes.skippedNone ∉ rs) :
    (conversion_thread_counts gameFiles completedFiles rs none).successful
      + (conversion_thread_counts gameFiles completedFiles rs none).failed
      + (conversion_thread_counts gameFiles completedFiles rs none).skippedCount
      = gameFiles.length := by
  have hle : (filterCompleted gameFiles completedFiles).length
      ≤ gameFiles.length := List.length_filter_le _ _
  by_cases htot : (filterCompleted gameFiles completedFiles).length = 0
  · simp [conversion_thread_counts, htot]
  · have hne : ((filterCompleted gameFiles completedFiles).length == 0) = false := by
      simpa using htot
    have hcount := processResults_count_none rs hnone 0 0 0 0
    simp only [conversion_thread_counts, hne, Bool.false_eq_true, if_false]
    omega

/-- Concrete instance of the amended C6: one discovered file, empty
    ledger, one successful result; the counts sum to the discovered
    count. -/
theorem C6_aggregate_counts_witness :
    (conversion_thread_counts [⟨"/g", "Delta", ".cue"⟩] []
        [JobRes.ok true] none).successful
      + (conversion_thread_counts [⟨"/g", "Delta", ".cue"⟩] []
          [JobRes.ok true] none).failed
      + (conversion_thread_counts [⟨"/g", "Delta", ".cue"⟩] []
          [JobRes.ok true] none).skippedCount
      = ([⟨"/g", "Delta", ".cue"⟩] : List FPath).length :=
  C6_aggregate_counts [⟨"/g", "Delta", ".cue"⟩] [] [JobRes.ok true]
    (by decide) (by decide)

lemma convert_game_skip (s : Settings) (env : JobEnv) (p : FPath)
    (st : ConvState) (out : FPath)
    (hres : resolveOutput s env.isoSize p = some out)
    (hex : env.fsExists out = true) :
    convert_game s env p st = (⟨true, false, none⟩, st) := by
  simp [convert_game, hres, hex]

lemma runJobsFull_all_skipped (s : Settings) (envOf : FPath → JobEnv)
    (jobs : List FPath)
    (hout : ∀ p ∈ jobs, ∃ out,
      resolveOutput s (envOf p).isoSize p = some out
        ∧ (envOf p).fsExists out = true) :
    ∀ succ fail inv st,
      runJobsFull s envOf jobs succ fail inv st
        = ((succ + jobs.length, fail, inv), st) := by
  induction jobs with
  | nil =>
    intro succ fail inv st
    simp [runJobsFull]
  | cons p ps ih =>
    intro succ fail inv st
    rcases hout p (List.mem_cons_self p ps) with ⟨out, hres, hex⟩
    have hskip := convert_game_skip s (envOf p) p st out hres hex
    simp only [runJobsFull, hskip, if_true, Bool.false_eq_true, if_false]
    rw [ih (fun q hq => hout q (List.mem_cons_of_mem p hq)) (succ + 1) fail inv st]
    simp only [List.length_cons, Prod.mk.injEq, and_true, true_and]
    omega

/-- Claim C4 counterexample: a second run over one already-converted
    file reports `successful = 1`, not `successCount == 0`, and the
    ledger-based skipped count is 0, not `totalJobs` — the in-run
    "already exists" skip is folded into the success count. -/
theorem C4_counterexample :
    (runBatchFull ⟨false, false, "CSO", "CHD"⟩
        (fun _ =>
          ⟨fun q => decide (q = withSuffix ⟨"/games", "Gamma", ".cue"⟩ ".chd"),
           0, 700, ProcResult.completed 0 "" "", true, 10⟩)
        [⟨"/games", "Gamma", ".cue"⟩] ⟨[], [], 0, 0⟩).1.1 = 1
      ∧ ([⟨"/games", "Gamma", ".cue"⟩] : List FPath).length
          - (filterCompleted [⟨"/games", "Gamma", ".cue"⟩] []).length = 0 := by
  decide

/-- Claim C4 amended: re-running a batch in which every job's resolved
    output artifact already exists is cheap and safe — each job
    short-circuits with no converter invocation and no error — but the
    re-run reports `successful = totalJobs` and `failed = 0` with zero
    invocations and an unchanged state (ledger untouched); the
    ledger-based skipped-already-done count is 0, since a clean first
    run cleared the ledger. -/
theorem C4_second_run_all_skips (s : Settings) (envOf : FPath → JobEnv)
    (gameFiles : List FPath) (st : ConvState)
    (hledger : st.completed = [])
    (hout : ∀ p ∈ gameFiles, ∃ out,
      resolveOutput s (envOf p).isoSize p = some out
        ∧ (envOf p).fsExists out = true) :
    runBatchFull s envOf gameFiles st = ((gameFiles.length, 0, 0), st) := by
  have hfilter : filterCompleted gameFiles st.completed = gameFiles := by
    rw [hledger]
    simp [filterCompleted]
  rw [runBatchFull, hfilter,
    runJobsFull_all_skipped s envOf gameFiles hout 0 0 0 st]
  simp

/-- Concrete instance of the amended C4: a one-file second run returns
    one success, zero failures, zero invocations, state unchanged. -/
theorem C4_second_run_all_skips_witness :
    runBatchFull ⟨false, false, "CSO", "CHD"⟩
        (fun _ =>
          ⟨fun q => decide (q = withSuffix ⟨"/games", "Epsilon", ".cue"⟩ ".chd"),
           0, 700, ProcResult.completed 0 "" "", true, 10⟩)
        [⟨"/games", "Epsilon", ".cue"⟩] ⟨[], [], 0, 0⟩
      = ((1, 0, 0), ⟨[], [], 0, 0⟩) := by
  exact C4_second_run_all_skips ⟨false, false, "CSO", "CHD"⟩
    (fun _ =>
      ⟨fun q => decide (q = withSuffix ⟨"/games", "Epsilon", ".cue"⟩ ".chd"),
       0, 700, ProcResult.completed 0 "" "", true, 10⟩)
    [⟨"/games", "Epsilon", ".cue"⟩] ⟨[], [], 0, 0⟩ rfl
    (fun q hq => by
      have hq' : q = ⟨"/games", "Epsilon", ".cue"⟩ := by simpa using hq
      subst hq'
      exact ⟨withSuffix ⟨"/games", "Epsilon", ".cue"⟩ ".chd", by decide, by decide⟩)

/-- Claim C5 counterexample: the converter exits 0 and the output path
    exists but the output file is empty (`st_size = 0`); `convert_game`
    still reports success — the success check is
    `returncode == 0 and output_path.exists()`, with no non-emptiness
    requirement, refuting the claimed contract. -/
theorem C5_counterexample :
    (convert_game ⟨false, false, "CSO", "CHD"⟩
        ⟨fun _ => false, 0, 700, ProcResult.completed 0 "" "", true, 0⟩
        ⟨"/games", "Zeta", ".cue"⟩ ⟨[], [], 0, 0⟩).1.success = true
      ∧ (⟨fun _ => false, 0, 700, ProcResult.completed 0 "" "", true, 0⟩
          : JobEnv).outputSizeAfter = 0 := by
  decide

/-- Claim C5 amended: for a job whose output path resolves and does not
    already exist, the result is success iff the process completed with
    exit code 0 AND a file (possibly empty) exists at the output path
    afterwards; exactly one converter invocation occurs; and every
    completed run that misses that condition fails with
    `stderr.strip() or stdout.strip()` as the captured reason (timeouts
    and exceptions also fail). -/
lemma runConverter_success_iff (env : JobEnv) (orig : Nat) (p : FPath)
    (st : ConvState) :
    (runConverter env orig p st).1.success = true
      ↔ (∃ o e, env.proc = ProcResult.completed 0 o e)
          ∧ env.outExistsAfter = true := by
  obtain ⟨fs, iso, cue, proc, outA, outS⟩ := env
  cases proc with
  | completed rc o e =>
    by_cases h : (rc == 0 && outA) = true
    · rw [Bool.and_eq_true] at h
      obtain ⟨h1, h2⟩ := h
      have h1' : rc = 0 := by simpa using h1
      subst h1'
      simp only [runConverter, h2]
      simp
    · simp only [runConverter]
      rw [if_neg h]
      simp only [Bool.false_eq_true, false_iff, not_and]
      rintro ⟨o', e', hpe⟩ houtA
      injection hpe with h0 _ _
      subst h0
      simp [houtA] at h
  | timedOut => simp [runConverter]
  | raised => simp [runConverter]

lemma runConverter_invoked (env : JobEnv) (orig : Nat) (p : FPath)
    (st : ConvState) :
    (runConverter env orig p st).1.invoked = true := by
  obtain ⟨fs, iso, cue, proc, outA, outS⟩ := env
  cases proc with
  | completed rc o e =>
    simp only [runConverter]
    by_cases h : (rc == 0 && outA) = true
    · rw [if_pos h]
    · rw [if_neg h]
  | timedOut => rfl
  | raised => rfl

lemma runConverter_error_text (env : JobEnv) (orig : Nat) (p : FPath)
    (st : ConvState) (rc : Int) (o e : String)
    (hpe : env.proc = ProcResult.completed rc o e)
    (hne : ¬ (rc = 0 ∧ env.outExistsAfter = true)) :
    (runConverter env orig p st).1.errorText
      = some (orElseStr (trimStr e) (trimStr o)) := by
  obtain ⟨fs, iso, cue, proc, outA, outS⟩ := env
  simp only at hpe hne
  subst hpe
  have h : (rc == 0 && outA) = false := by
    rcases Bool.eq_false_or_eq_true (rc == 0 && outA) with h | h
    · rw [Bool.and_eq_true] at h
      obtain ⟨h1, h2⟩ := h
      exact absurd ⟨by simpa using h1, h2⟩ hne
    · exact h
  simp only [runConverter]
  rw [if_neg (by simp [h])]

theorem C5_success_condition (s : Settings) (env : JobEnv) (p : FPath)
    (st : ConvState) (out : FPath)
    (hres : resolveOutput s env.isoSize p = some out)
    (hpre : env.fsExists out = false) :
    ((convert_game s env p st).1.success = true
        ↔ (∃ o e, env.proc = ProcResult.completed 0 o e)
            ∧ env.outExistsAfter = true)
      ∧ (convert_game s env p st).1.invoked = true
      ∧ (∀ rc o e, env.proc = ProcResult.completed rc o e →
          ¬ (rc = 0 ∧ env.outExistsAfter = true) →
          (convert_game s env p st).1.errorText
            = some (orElseStr (trimStr e) (trimStr o))) := by
  have hcg : convert_game s env p st
      = runConverter env
          (if lowerStr p.ext == ".cue" then env.cueOriginalSize
           else env.isoSize) p st := by
    simp [convert_game, hres, hpre]
  rw [hcg]
  exact ⟨runConverter_success_iff env _ p st, runConverter_invoked env _ p st,
    fun rc o e hpe hne => runConverter_error_text env _ p st rc o e hpe hne⟩

/-- Concrete instance of the amended C5: exit code 1 with an error
    stream yields failure with the stripped stderr as reason. -/
theorem C5_success_condition_witness :
    (convert_game ⟨false, false, "CSO", "CHD"⟩
        ⟨fun _ => false, 0, 700, ProcResult.completed 1 "" " boom ", false, 0⟩
        ⟨"/games", "Eta", ".cue"⟩ ⟨[], [], 0, 0⟩).1.errorText
      = some (orElseStr (trimStr " boom ") (trimStr "")) :=
  (C5_success_condition ⟨false, false, "CSO", "CHD"⟩
      ⟨fun _ => false, 0, 700, ProcResult.completed 1 "" " boom ", false, 0⟩
      ⟨"/games", "Eta", ".cue"⟩ ⟨[], [], 0, 0⟩
      (withSuffix ⟨"/games", "Eta", ".cue"⟩ ".chd")
      (by decide) (by decide)).2.2 1 "" " boom " rfl
    (by simp)

lemma resolveOutput_withSuffix (s : Settings) (n : Nat) (p : FPath)
    (o : FPath) (h : resolveOutput s n p = some o) :
    o.dir = p.dir ∧ o.stem = p.stem := by
  simp only [resolveOutput] at h
  repeat' split at h
  all_goals first
    | exact Option.noConfusion h
    | (injection h with h2; subst h2; exact ⟨rfl, rfl⟩)

/-- Claim C7 counterexample: two distinct source descriptors,
    `Foo.cue` and `Foo.iso` (PS2 processing enabled, CHD output,
    2.0 GB ISO with no identifying signals), both resolve to the same
    output path `Foo.chd`; no disambiguating suffix exists anywhere in
    the resolution — refuting distinctness of resolved outputs. -/
theorem C7_counterexample :
    resolveOutput ⟨false, true, "CSO", "CHD"⟩ 2147483648
        ⟨"/g", "Foo", ".cue"⟩
      = some ⟨"/g", "Foo", ".chd"⟩
      ∧ resolveOutput ⟨false, true, "CSO", "CHD"⟩ 2147483648
          ⟨"/g", "Foo", ".iso"⟩
        = some ⟨"/g", "Foo", ".chd"⟩
      ∧ (⟨"/g", "Foo", ".cue"⟩ : FPath) ≠ ⟨"/g", "Foo", ".iso"⟩ := by
  decide

/-- Claim C7 amended: a resolved output path is always the source path
    with only the extension replaced, so jobs whose sources differ in
    directory or in stem always get distinct outputs; but two sources
    sharing directory and stem (differing only in extension) can
    resolve to the same output path, and no disambiguating suffix is
    ever appended — the colliding later job is skipped by the
    output-exists check rather than overwritten (see `convert_game`). -/
theorem C7_distinct_outputs (s : Settings) (n1 n2 : Nat) (p q : FPath)
    (op oq : FPath)
    (hdist : p.dir ≠ q.dir ∨ p.stem ≠ q.stem)
    (hp : resolveOutput s n1 p = some op)
    (hq : resolveOutput s n2 q = some oq) :
    op ≠ oq := by
  rcases resolveOutput_withSuffix s n1 p op hp with ⟨hd1, hs1⟩
  rcases resolveOutput_withSuffix s n2 q oq hq with ⟨hd2, hs2⟩
  intro hEq
  rcases hdist with h | h
  · exact h (by rw [← hd1, ← hd2, hEq])
  · exact h (by rw [← hs1, ← hs2, hEq])

/-- Concrete instance of the amended C7: same directory, different
    stems, distinct resolved outputs. -/
theorem C7_distinct_outputs_witness :
    (⟨"/g", "Alpha", ".chd"⟩ : FPath) ≠ ⟨"/g", "Beta", ".chd"⟩ :=
  C7_distinct_outputs ⟨false, false, "CSO", "CHD"⟩ 0 0
    ⟨"/g", "Alpha", ".cue"⟩ ⟨"/g", "Beta", ".cue"⟩
    ⟨"/g", "Alpha", ".chd"⟩ ⟨"/g", "Beta", ".chd"⟩
    (Or.inr (by decide)) (by decide) (by decide)

lemma gateLoop_sleeps_le (critical : ℚ) (conv : Nat → Bool)
    (mem : Nat → Option ℚ) :
    ∀ fuel k, gateSleepCount (gateLoop critical 60 conv mem fuel k)
      ≤ max k 30 := by
  intro fuel
  induction fuel with
  | zero =>
    intro k
    simp only [gateLoop, gateSleepCount]
    exact Nat.le_max_left k 30
  | succ n ih =>
    intro k
    by_cases hc : (decide (2 * k < 60) && conv k) = true
    · simp only [gateLoop, hc, if_true]
      cases hm : mem k with
      | none =>
        simp only [gateSleepCount]
        exact Nat.le_max_left k 30
      | some m =>
        dsimp only
        by_cases hlt : m < critical
        · simp only [hlt, if_pos, gateSleepCount]
          exact Nat.le_max_left k 30
        · rw [if_neg hlt]
          have h2k : 2 * k < 60 := by
            have hc2 := hc
            rw [Bool.and_eq_true] at hc2
            simpa using hc2.1
          have hk1 : k + 1 ≤ 30 := by omega
          refine le_trans (ih (k + 1)) ?_
          rw [Nat.max_eq_right hk1]
          exact Nat.le_max_right k 30
    · have hc' : (decide (2 * k < 60) && conv k) = false := by
        simpa using hc
      simp only [gateLoop, hc', Bool.false_eq_true, if_false, gateSleepCount]
      exact Nat.le_max_left k 30

/-- Claim C8: the per-job memory-pressure gate. (a) With psutil
    unavailable the gate is a no-op and `check_system_resources` always
    returns the baseline core count; (b) with the first sample below the
    critical threshold (default 95) and the run active, the gate
    proceeds immediately with zero sleep iterations; (c) the gate at its
    call-site parameters (`max_wait = 60`, 2-second polls, one
    `gc.collect()` hint per blocked iteration) always exits after at
    most 30 sleep iterations, i.e. at most 60 seconds of waiting, and
    the worker then proceeds regardless. -/
theorem C8_memory_pressure_gate (conv : Nat → Bool) (mem : Nat → Option ℚ)
    (m : ℚ) (hconv : conv 0 = true) (hmem : mem 0 = some m)
    (hm : m < 95) :
    (∀ critical maxWait,
        wait_for_memory_pressure false critical conv mem maxWait
          = GateExit.notAvailable)
      ∧ (∀ cores rt ct sample,
          check_system_resources false cores rt ct sample = cores)
      ∧ wait_for_memory_pressure true 95 conv mem 60
          = GateExit.proceedBelow 0
      ∧ (∀ (conv2 : Nat → Bool) (mem2 : Nat → Option ℚ) (critical : ℚ),
          gateSleepCount (wait_for_memory_pressure true critical conv2 mem2 60)
            ≤ 30) := by
  refine ⟨fun critical maxWait => rfl, fun cores rt ct sample => rfl, ?_, ?_⟩
  · have hstep : wait_for_memory_pressure true 95 conv mem 60
        = gateLoop 95 60 conv mem (59 + 1) 0 := rfl
    rw [hstep, gateLoop]
    have hcond : (decide (2 * 0 < 60) && conv 0) = true := by
      simp [hconv]
    rw [if_pos hcond, hmem]
    dsimp only
    rw [if_pos hm]
  · intro conv2 mem2 critical
    have hstep : wait_for_memory_pressure true critical conv2 mem2 60
        = gateLoop critical 60 conv2 mem2 60 0 := rfl
    rw [hstep]
    have := gateLoop_sleeps_le critical conv2 mem2 60 0
    simpa using this

/-- Concrete instance of C8: with a 90%-utilization first sample the
    gate proceeds immediately. -/
theorem C8_memory_pressure_gate_witness :
    wait_for_memory_pressure true 95 (fun _ => true) (fun _ => some 90) 60
      = GateExit.proceedBelow 0 :=
  (C8_memory_pressure_gate (fun _ => true) (fun _ => some 90) 90 rfl rfl
    (by norm_num)).2.2.1

lemma detect_iso_system_staged (m : String) (sz : Option Nat)
    (q : Option String) :
    detect_iso_system m sz q
      = Option.orElse (classify_by_id (lowerStr m))
          (fun _ => Option.orElse (classify_by_folder (pathToCheckOf m q))
            (fun _ => classify_by_size sz)) := by
  by_cases hA : PSP_ID_PATTERNS.any (fun t => strContains (lowerStr m) t) = true
  · simp [detect_iso_system, classify_by_id, hA, Option.orElse]
  · by_cases hB : PS2_ID_PATTERNS.any (fun t => strContains (lowerStr m) t) = true
    · simp [detect_iso_system, classify_by_id, hA, hB, Option.orElse]
    · cases q with
      | none =>
        cases hF : findSystemInParts
            (splitPred (fun c => c == '/' || c == '\\') (lowerStr m)) with
        | none =>
          cases sz <;>
            simp [detect_iso_system, classify_by_id, classify_by_folder,
              pathToCheckOf, classify_by_size, hA, hB, hF, Option.orElse]
        | some sys =>
          simp [detect_iso_system, classify_by_id, classify_by_folder,
            pathToCheckOf, hA, hB, hF, Option.orElse]
      | some fp =>
        cases hF : findSystemInParts
            (splitPred (fun c => c == '/' || c == '\\') (lowerStr fp)) with
        | none =>
          cases sz <;>
            simp [detect_iso_system, classify_by_id, classify_by_folder,
              pathToCheckOf, classify_by_size, hA, hB, hF, Option.orElse]
        | some sys =>
          simp [detect_iso_system, classify_by_id, classify_by_folder,
            pathToCheckOf, hA, hB, hF, Option.orElse]

/-- Claim C9: `detect_iso_system` applies its signals in the stated
    precedence order — filename game-ID substrings, then folder tokens
    on the split path, then the size thresholds (≥ 3.0 GB ⇒ PS2,
    ≤ 0.5 GB ⇒ PSP), then `None` — and a 2.0 GB ISO with no identifier
    substring and no folder hint classifies as `None`; the eventual
    category is then decided solely by the enabled-systems policy in
    `convert_game`, which with both systems enabled defaults to PS2 and
    logs a warning. -/
theorem C9_classification_precedence (n : String) (fp : Option String)
    (hA : classify_by_id (lowerStr n) = none)
    (hB : classify_by_folder (pathToCheckOf n fp) = none) :
    (∀ m sz q, detect_iso_system m sz q
        = Option.orElse (classify_by_id (lowerStr m))
            (fun _ => Option.orElse (classify_by_folder (pathToCheckOf m q))
              (fun _ => classify_by_size sz)))
      ∧ detect_iso_system n (some 2147483648) fp = none
      ∧ decide_treatment true true
          (detect_iso_system n (some 2147483648) fp) = (Treat.ps2, true) := by
  have hstaged := detect_iso_system_staged
  have hnone : detect_iso_system n (some 2147483648) fp = none := by
    rw [hstaged n (some 2147483648) fp, hA, hB]
    simp [Option.orElse, classify_by_size]
  refine ⟨hstaged, hnone, ?_⟩
  rw [hnone]
  rfl

/-- Concrete instance of C9: a 2.0 GB `Game.iso` with a hint-free path
    classifies as unknown. -/
theorem C9_classification_precedence_witness :
    detect_iso_system "Game.iso" (some 2147483648)
        (some "/data/discs/Game.iso") = none :=
  (C9_classification_precedence "Game.iso" (some "/data/discs/Game.iso")
    (by decide) (by decide)).2.1

lemma parse_cue_refs_no_repairs (dir : CueDir) (cueBase : String) :
    ∀ ms, (∀ m ∈ ms, dir.existing.contains m = true) →
      (parse_cue_refs dir cueBase ms).2 = [] := by
  intro ms
  induction ms with
  | nil => intro _; rfl
  | cons m ms ih =>
    intro h
    have hm := h m (List.mem_cons_self m ms)
    simp only [parse_cue_refs, hm, if_true]
    exact ih (fun x hx => h x (List.mem_cons_of_mem m hx))

/-- Claim C10: `parse_cue_file` is not read-only. With `auto_repair`
    enabled (the default), whenever the repair lookup produced at least
    one entry the returned CUE text is the original with every repaired
    reference name rewritten (quoted old name to quoted sibling name),
    and that text is written back to the descriptor file on disk; a
    descriptor all of whose references resolve yields no repair entries
    and its text is left unchanged, as is every descriptor when
    `auto_repair` is disabled. -/
theorem C10_cue_auto_repair_mutates (content : String)
    (refNames : List String) (dir : CueDir) (cueBase : String) :
    ((∀ m ∈ refNames, dir.existing.contains m = true) →
        (parse_cue_file true content refNames dir cueBase).newContent
          = content)
      ∧ ((parse_cue_file true content refNames dir cueBase).repairs ≠ [] →
          (parse_cue_file true content refNames dir cueBase).newContent
            = applyRepairs content
                (parse_cue_file true content refNames dir cueBase).repairs)
      ∧ (parse_cue_file false content refNames dir cueBase).newContent
          = content := by
  refine ⟨?_, ?_, ?_⟩
  · intro h
    have hrep := parse_cue_refs_no_repairs dir cueBase refNames h
    simp [parse_cue_file, hrep]
  · intro h
    have hrep : (parse_cue_refs dir cueBase refNames).2 ≠ [] := by
      simpa [parse_cue_file] using h
    have hne : ((parse_cue_refs dir cueBase refNames).2.isEmpty) = false := by
      simpa [List.isEmpty_iff] using hrep
    simp [parse_cue_file, hne]
  · simp [parse_cue_file]

/-- Concrete instances of C10: a descriptor whose single reference
    resolves is untouched, and the spec's repair scenario — reference
    `Foo (USA).bin` missing, sibling `Foo.bin` on disk, CUE stem `Foo` —
    rewrites the descriptor text with the repair map. -/
theorem C10_cue_auto_repair_mutates_witness :
    (parse_cue_file true "FILE \"Foo.bin\" BINARY" ["Foo.bin"]
        ⟨["Foo.bin"], ["Foo"]⟩ "Foo").newContent
      = "FILE \"Foo.bin\" BINARY"
    ∧ (parse_cue_file true "FILE \"Foo (USA).bin\" BINARY" ["Foo (USA).bin"]
        ⟨[], ["Foo"]⟩ "Foo").newContent
      = applyRepairs "FILE \"Foo (USA).bin\" BINARY"
          (parse_cue_file true "FILE \"Foo (USA).bin\" BINARY"
            ["Foo (USA).bin"] ⟨[], ["Foo"]⟩ "Foo").repairs :=
  ⟨(C10_cue_auto_repair_mutates "FILE \"Foo.bin\" BINARY" ["Foo.bin"]
      ⟨["Foo.bin"], ["Foo"]⟩ "Foo").1 (by decide),
   (C10_cue_auto_repair_mutates "FILE \"Foo (USA).bin\" BINARY"
      ["Foo (USA).bin"] ⟨[], ["Foo"]⟩ "Foo").2.1 (by decide)⟩

end RomConv
